import Mathlib

/-
  Shallow embedding of `src/server/api/routers/my-friend-router.ts`.

  The router reads a relational edge store:
    friendships(userId, friendUserId, status)   -- primary key (userId, friendUserId)
    users(id, fullName, phoneNumber)            -- primary key id
  and exposes three read-only operations: `getById` (single friend lookup),
  `getAll` and `getAll1` (two batch friend listings).  SQL queries are embedded
  as list computations: filters become `List.filter`, an inner join becomes a
  nested loop (`List.bind` / filter), a grouped subquery keyed by a column
  becomes an `Option`-valued lookup (a group row exists iff at least one source
  row falls into the group, and `COUNT(*)` of that group is positive), and a
  left join becomes an `Option`-valued field (SQL NULL = `none`).
-/

namespace FriendRouter

inductive FriendshipStatus
  | requested
  | accepted
  | declined
deriving DecidableEq, Repr

/-- One row of the `friendships` relation: a directed edge with a status. -/
structure Friendship where
  userId : Nat
  friendUserId : Nat
  status : FriendshipStatus
deriving DecidableEq, Repr

/-- One row of the `users` relation. -/
structure User where
  id : Nat
  fullName : String
  phoneNumber : String
deriving DecidableEq, Repr

/-- The edge-store state the router queries. -/
structure DB where
  users : List User
  friendships : List Friendship
deriving Repr

/-- Rows of `friendships` with `status = 'accepted'`; every aggregator in the
router filters on this status. -/
def acceptedEdges (db : DB) : List Friendship :=
  db.friendships.filter fun e => decide (e.status = FriendshipStatus.accepted)

/-- An accepted edge `(a, b)` is present in the store. -/
def hasAcceptedEdge (db : DB) (a b : Nat) : Prop :=
  ∃ e ∈ db.friendships,
    e.userId = a ∧ e.friendUserId = b ∧ e.status = FriendshipStatus.accepted

instance (db : DB) (a b : Nat) : Decidable (hasAcceptedEdge db a b) := by
  unfold hasAcceptedEdge; infer_instance

/-- `COUNT(*)` of an inner self-join of two row lists under a join/where
predicate, evaluated as a nested loop: for each `f1` of `l1`, count the
matching `f2` of `l2`. -/
def joinCount (l1 l2 : List Friendship) (p : Friendship → Friendship → Bool) : Nat :=
  (l1.map fun f1 => ((l2.filter fun f2 => p f1 f2).length)).sum

/-- `userTotalFriendCount` (source lines 203-212), evaluated at group key `u`:
`COUNT(friendships.friendUserId)` over accepted rows with `userId = u`. -/
def totalFriendCount (db : DB) (u : Nat) : Nat :=
  ((acceptedEdges db).filter fun e => decide (e.userId = u)).length

/-- The grouped subquery row of `userTotalFriendCount` for key `u`: the group
exists iff `u` has at least one accepted outgoing edge. -/
def userTotalFriendCount (db : DB) (u : Nat) : Option Nat :=
  if totalFriendCount db u = 0 then none else some (totalFriendCount db u)

/-- Join-row count of `userMutualFriendCount` (source lines 214-232) at its
single group key `(friendUserId, userId)`: accepted `f1`, accepted `f2`,
`f1.friendUserId = f2.friendUserId`, `f1.userId = friendUserId`,
`f2.userId = userId`. -/
def mutualPairCount (db : DB) (userId friendUserId : Nat) : Nat :=
  joinCount (acceptedEdges db) (acceptedEdges db) fun f1 f2 =>
    decide (f1.friendUserId = f2.friendUserId
      ∧ f1.userId = friendUserId ∧ f2.userId = userId)

/-- The grouped subquery row of `userMutualFriendCount`: the one possible group
`(user = friendUserId, friend = userId)` exists iff its count is positive. -/
def userMutualFriendCount (db : DB) (userId friendUserId : Nat) : Option Nat :=
  if mutualPairCount db userId friendUserId = 0 then none
  else some (mutualPairCount db userId friendUserId)

/-- Join-row count of `mutualFriendsCountAll` (source lines 234-251) at group
key `(v, userId)`: accepted `f1`, accepted `f2`, joined on
`f1.friendUserId = f2.friendUserId` and `f1.userId <> f2.userId` and
`f2.userId = userId`, restricted to the group `f1.userId = v`. -/
def mutualAllCount (db : DB) (userId v : Nat) : Nat :=
  joinCount (acceptedEdges db) (acceptedEdges db) fun f1 f2 =>
    decide (f1.friendUserId = f2.friendUserId ∧ f1.userId ≠ f2.userId
      ∧ f2.userId = userId ∧ f1.userId = v)

/-- The grouped subquery row of `mutualFriendsCountAll` for friend key `v`. -/
def mutualFriendsCountAll (db : DB) (userId v : Nat) : Option Nat :=
  if mutualAllCount db userId v = 0 then none else some (mutualAllCount db userId v)

/-- A raw selected row before response-schema validation.  `mutualFriendCount`
is `Option`-valued because it comes from a left join: `none` is SQL NULL. -/
structure FriendRow where
  id : Nat
  fullName : String
  phoneNumber : String
  totalFriendCount : Nat
  mutualFriendCount : Option Nat
deriving DecidableEq, Repr

/-- A validated response record (`FriendRecord` of the spec). -/
structure FriendRecord where
  id : Nat
  fullName : String
  phoneNumber : String
  totalFriendCount : Nat
  mutualFriendCount : Nat
deriving DecidableEq, Repr

inductive RouterError
  | notFound
  | parseError
  | validationError
deriving DecidableEq, Repr

/-- Modelled from the spec: the zod response schema
`z.object({id: IdSchema, fullName: NonEmptyStringSchema, phoneNumber:
NonEmptyStringSchema, totalFriendCount: CountSchema, mutualFriendCount:
CountSchema})` lives in `base-schemas`, which is not part of the source here.
Per the spec: ids are positive integers, names and phone numbers non-empty
strings, counts exact non-negative integers, and a null where a count was
expected is a defect (rejected), not a silently-coerced default. -/
def parseRecord (r : FriendRow) : Except RouterError FriendRecord :=
  match r.mutualFriendCount with
  | none => Except.error RouterError.parseError
  | some m =>
    if 0 < r.id ∧ r.fullName ≠ "" ∧ r.phoneNumber ≠ "" then
      Except.ok ⟨r.id, r.fullName, r.phoneNumber, r.totalFriendCount, m⟩
    else Except.error RouterError.parseError

/-- The selected row of `getById` built from a matching `users` row `u`
(source lines 67-75): the total comes from the inner-joined
`userTotalFriendCount` group of `u.id`; the mutual count comes from the
left-joined `userMutualFriendCount` subquery, whose single row has
`user = targetId`, and is coalesced with 0. -/
def getByIdSelect (db : DB) (requesterId targetId : Nat) (u : User) : FriendRow :=
  { id := u.id
    fullName := u.fullName
    phoneNumber := u.phoneNumber
    totalFriendCount := (userTotalFriendCount db u.id).getD 0
    mutualFriendCount :=
      some ((if u.id = targetId then userMutualFriendCount db requesterId targetId
             else none).getD 0) }

/-- Result rows of the `getById` query (source lines 43-75): `users as friends`
inner-joined with `friendships` on `friendships.friendUserId = friends.id`,
inner-joined with the `userTotalFriendCount` groups on `userId = friends.id`,
filtered to `friendships.userId = requesterId`,
`friendships.friendUserId = targetId`, `status = 'accepted'`. -/
def getByIdRows (db : DB) (requesterId targetId : Nat) : List FriendRow :=
  db.users.flatMap fun u =>
    db.friendships.filterMap fun f =>
      if (userTotalFriendCount db u.id).isSome
          ∧ f.friendUserId = u.id ∧ f.userId = requesterId
          ∧ f.friendUserId = targetId ∧ f.status = FriendshipStatus.accepted then
        some (getByIdSelect db requesterId targetId u)
      else none

/-- `getById` (source lines 17-87): `executeTakeFirstOrThrow` with a NOT_FOUND
error, then the zod response parse. -/
def getById (db : DB) (requesterId targetId : Nat) : Except RouterError FriendRecord :=
  match (getByIdRows db requesterId targetId).head? with
  | none => Except.error RouterError.notFound
  | some row => parseRecord row

/-- The selected row of `getAll` built from a matching `users` row `u`
(source lines 112-118).  Unlike `getById`, the left-joined
`mutualFriendCount` column is selected without coalescing, so it stays
`none` (SQL NULL) when the friend has no mutual-count group row. -/
def getAllSelect (db : DB) (requesterId : Nat) (u : User) : FriendRow :=
  { id := u.id
    fullName := u.fullName
    phoneNumber := u.phoneNumber
    totalFriendCount := (userTotalFriendCount db u.id).getD 0
    mutualFriendCount := mutualFriendsCountAll db requesterId u.id }

/-- Result rows of the `getAll` query (source lines 89-119): same base join as
`getById` but filtered only to `friendships.userId = requesterId` and
`status = 'accepted'`, with the batch `mutualFriendsCountAll` left-joined on
its `user` key. -/
def getAllRows (db : DB) (requesterId : Nat) : List FriendRow :=
  db.users.flatMap fun u =>
    db.friendships.filterMap fun f =>
      if (userTotalFriendCount db u.id).isSome
          ∧ f.friendUserId = u.id ∧ f.userId = requesterId
          ∧ f.status = FriendshipStatus.accepted then
        some (getAllSelect db requesterId u)
      else none

/-- `getAll` (source lines 89-132): execute, then `z.array(...)`-parse every
row; any row failing the schema fails the whole operation. -/
def getAll (db : DB) (requesterId : Nat) : Except RouterError (List FriendRecord) :=
  (getAllRows db requesterId).mapM parseRecord

/-- `COUNT(friendsFriendships.friendUserId)` of `getAll1` for group
`friends.id = v` (source line 183): accepted edges with `userId = v` and
`userId != requesterId` (the `friendsFriendships` CTE filter). -/
def totalOtherCount (db : DB) (requesterId v : Nat) : Nat :=
  ((acceptedEdges db).filter fun e =>
    decide (e.userId = v ∧ e.userId ≠ requesterId)).length

/-- Join-row count of the `mutualFriendCount` CTE of `getAll1` (source lines
159-171) at group key `(requesterId, v)`: `f1` from `userFriendships`
(accepted, `userId = requesterId`), `f2` from `friendsFriendships` (accepted,
`userId != requesterId`), joined on `f1.friendUserId = f2.friendUserId`,
restricted to the group `f2.userId = v`. -/
def mutualCteCount (db : DB) (requesterId v : Nat) : Nat :=
  joinCount (acceptedEdges db) (acceptedEdges db) fun f1 f2 =>
    decide (f1.userId = requesterId ∧ f2.userId ≠ requesterId
      ∧ f1.friendUserId = f2.friendUserId ∧ f2.userId = v)

/-- The grouped CTE row of `getAll1` for friend key `v` (the `user` component
of the group key is always `requesterId`). -/
def mutualFriendCountCte (db : DB) (requesterId v : Nat) : Option Nat :=
  if mutualCteCount db requesterId v = 0 then none
  else some (mutualCteCount db requesterId v)

/-- Result rows of the `getAll1` query (source lines 134-187): `users as
friends` inner-joined with the `friendsFriendships` CTE on
`friendsFriendships.userId = friends.id`, grouped by `friends.id` (one output
row per user row, `users.id` being the primary key), with the aggregated
total and the left-joined CTE mutual count (again no coalesce: `none` = NULL
when the CTE has no group for the friend). -/
def getAll1Rows (db : DB) (requesterId : Nat) : List FriendRow :=
  db.users.filterMap fun u =>
    if totalOtherCount db requesterId u.id = 0 then none
    else
      some { id := u.id
             fullName := u.fullName
             phoneNumber := u.phoneNumber
             totalFriendCount := totalOtherCount db requesterId u.id
             mutualFriendCount := mutualFriendCountCte db requesterId u.id }

/-- `getAll1` (source lines 134-200): execute, then `z.array(...)`-parse. -/
def getAll1 (db : DB) (requesterId : Nat) : Except RouterError (List FriendRecord) :=
  (getAll1Rows db requesterId).mapM parseRecord

/-- Modelled from the spec: `IdSchema` (in `base-schemas`, not part of the
source here) validates a positive integer id; the tRPC input parse
(source lines 18-22) rejects a malformed `friendUserId` with a validation
error before the query runs.  The input is modelled as an `Int` so that
non-positive values exist; the wrong-type case is outside this model. -/
def getByIdProc (db : DB) (requesterId : Nat) (friendUserId : Int) :
    Except RouterError FriendRecord :=
  if friendUserId ≤ 0 then Except.error RouterError.validationError
  else getById db requesterId friendUserId.toNat

/-- Well-formed store: user ids are unique (primary key) and valid per the
spec's data model, at most one current edge per ordered pair (primary key),
and edge endpoints reference existing users. -/
def WF (db : DB) : Prop :=
  (db.users.map fun u => u.id).Nodup
  ∧ (∀ u ∈ db.users, 0 < u.id ∧ u.fullName ≠ "" ∧ u.phoneNumber ≠ "")
  ∧ (db.friendships.map fun e => (e.userId, e.friendUserId)).Nodup
  ∧ (∀ e ∈ db.friendships,
      (∃ u ∈ db.users, u.id = e.userId) ∧ (∃ u ∈ db.users, u.id = e.friendUserId))

instance (db : DB) : Decidable (WF db) := by
  unfold WF; infer_instance

/-- The spec's accepted-symmetry invariant: every accepted edge has its
reverse accepted edge present. -/
def SymmOK (db : DB) : Prop :=
  ∀ e ∈ db.friendships, e.status = FriendshipStatus.accepted →
    hasAcceptedEdge db e.friendUserId e.userId

instance (db : DB) : Decidable (SymmOK db) := by
  unfold SymmOK; infer_instance

/-- No accepted self-edge `(x, x, accepted)` is present. -/
def NoSelfEdges (db : DB) : Prop :=
  ∀ e ∈ db.friendships, e.status = FriendshipStatus.accepted →
    e.userId ≠ e.friendUserId

instance (db : DB) : Decidable (NoSelfEdges db) := by
  unfold NoSelfEdges; infer_instance

/-- The spec's aggregate formula for the single pair restricted to third
parties (spec section 3: shared ids `w` with `w ≠ v`, `w ≠ u`): the
`userMutualFriendCount` join count with self-pairs excluded.  Used to compare
the source aggregator against the spec's no-self-counting property. -/
def mutualPairCountExcl (db : DB) (userId friendUserId : Nat) : Nat :=
  joinCount (acceptedEdges db) (acceptedEdges db) fun f1 f2 =>
    decide (f1.friendUserId = f2.friendUserId
      ∧ f1.userId = friendUserId ∧ f2.userId = userId
      ∧ f1.friendUserId ≠ userId ∧ f1.friendUserId ≠ friendUserId)

/-- The spec's third-party-only variant of the batch aggregator
`mutualFriendsCountAll` at group key `(v, userId)`. -/
def mutualAllCountExcl (db : DB) (userId v : Nat) : Nat :=
  joinCount (acceptedEdges db) (acceptedEdges db) fun f1 f2 =>
    decide (f1.friendUserId = f2.friendUserId ∧ f1.userId ≠ f2.userId
      ∧ f2.userId = userId ∧ f1.userId = v
      ∧ f1.friendUserId ≠ userId ∧ f1.friendUserId ≠ v)

/-- Both directed accepted edges of one mutually accepted pair. -/
def acceptedBoth (a b : Nat) : List Friendship :=
  [⟨a, b, FriendshipStatus.accepted⟩, ⟨b, a, FriendshipStatus.accepted⟩]

/-- Two users, one mutually accepted friendship, no third parties. -/
def dbPair : DB := ⟨[⟨1, "A", "p1"⟩, ⟨2, "B", "p2"⟩], acceptedBoth 1 2⟩

/-- The asymmetric web of the repository's test `Question 5 / Scenario 1`:
user 1 friends 2, 3, 4, 5; user 2 additionally friends 3 and 4. -/
def dbWeb : DB :=
  ⟨[⟨1, "A", "p1"⟩, ⟨2, "B", "p2"⟩, ⟨3, "C", "p3"⟩, ⟨4, "D", "p4"⟩, ⟨5, "E", "p5"⟩],
   acceptedBoth 1 2 ++ acceptedBoth 1 3 ++ acceptedBoth 1 4 ++ acceptedBoth 1 5
     ++ acceptedBoth 2 3 ++ acceptedBoth 2 4⟩

/-- A triangle 1-2-3 plus an edge 2-4: user 4 is not a friend of user 1 but
shares the neighbor 2 with user 1. -/
def dbC10 : DB :=
  ⟨[⟨1, "A", "p1"⟩, ⟨2, "B", "p2"⟩, ⟨3, "C", "p3"⟩, ⟨4, "D", "p4"⟩],
   acceptedBoth 1 2 ++ acceptedBoth 1 3 ++ acceptedBoth 2 3 ++ acceptedBoth 2 4⟩

/-- A mutually accepted pair 1-2 plus an accepted self-edge (1,1). -/
def dbSelf : DB :=
  ⟨[⟨1, "A", "p1"⟩, ⟨2, "B", "p2"⟩],
   acceptedBoth 1 2 ++ [⟨1, 1, FriendshipStatus.accepted⟩]⟩

/-- A one-directional accepted edge (1,2) with no reverse edge: the
accepted-symmetry invariant is violated and user 2 has no accepted
outgoing edge. -/
def dbAsym : DB := ⟨[⟨1, "A", "p1"⟩, ⟨2, "B", "p2"⟩], [⟨1, 2, FriendshipStatus.accepted⟩]⟩

/-- Like `dbAsym` but with a third user and a non-accepted edge out of the
target, so the target still has zero accepted outgoing edges. -/
def dbAsym2 : DB :=
  ⟨[⟨1, "A", "p1"⟩, ⟨2, "B", "p2"⟩, ⟨3, "C", "p3"⟩],
   [⟨1, 2, FriendshipStatus.accepted⟩, ⟨2, 3, FriendshipStatus.requested⟩]⟩

/-! ### General counting lemmas -/

theorem sum_map_add_nat {α : Type} (l : List α) (f g : α → Nat) :
    (l.map fun x => f x + g x).sum = (l.map f).sum + (l.map g).sum := by
  induction l with
  | nil => simp
  | cons a t ih => simp [ih]; omega

theorem sum_map_ite_count {α : Type} (l : List α) (p : α → Bool) :
    (l.map fun x => if p x then 1 else 0).sum = l.countP p := by
  induction l with
  | nil => simp
  | cons a t ih =>
    by_cases h : p a <;> simp [h, ih, List.countP_cons] <;> omega

/-- Counting the rows of an inner join is symmetric in the two sides. -/
theorem joinCount_comm (l1 l2 : List Friendship) (p : Friendship → Friendship → Bool) :
    joinCount l1 l2 p = joinCount l2 l1 fun a b => p b a := by
  induction l1 with
  | nil => simp [joinCount]
  | cons a t ih =>
    have hstep : ∀ b, ((a :: t).filter fun x => p x b).length
        = (if p a b then 1 else 0) + ((t.filter fun x => p x b)).length := by
      intro b
      by_cases h : p a b <;> simp [List.filter_cons, h] <;> omega
    have hsum : (l2.map fun b => ((a :: t).filter fun x => p x b).length).sum
        = (l2.map fun b => (if p a b then 1 else 0)
            + ((t.filter fun x => p x b)).length).sum := by
      exact congrArg List.sum (List.map_congr_left fun b _ => hstep b)
    calc joinCount (a :: t) l2 p
        = (l2.filter fun b => p a b).length + joinCount t l2 p := by
          simp [joinCount]
      _ = (l2.filter fun b => p a b).length + joinCount l2 t fun a b => p b a := by
          rw [ih]
      _ = (l2.map fun b => (if p a b then 1 else 0)).sum
            + joinCount l2 t (fun a b => p b a) := by
          rw [sum_map_ite_count, List.countP_eq_length_filter]
      _ = joinCount l2 (a :: t) fun a b => p b a := by
          simp only [joinCount, hsum, sum_map_add_nat]

/-- Join counts agree when the predicates agree on the rows present. -/
theorem joinCount_congr (l1 l2 : List Friendship) (p q : Friendship → Friendship → Bool)
    (h : ∀ a ∈ l1, ∀ b ∈ l2, p a b = q a b) :
    joinCount l1 l2 p = joinCount l1 l2 q := by
  unfold joinCount
  exact congrArg List.sum (List.map_congr_left fun a ha =>
    congrArg List.length (List.filter_congr fun b hb => h a ha b hb))

theorem countP_le_one_of_key {α β : Type} (l : List α) (k : α → β) (p : α → Bool) (c : β)
    (hnd : (l.map k).Nodup) (hk : ∀ a ∈ l, p a → k a = c) :
    l.countP p ≤ 1 := by
  induction l with
  | nil => simp
  | cons a t ih =>
    rw [List.map_cons, List.nodup_cons] at hnd
    by_cases h : p a
    · have ht : t.countP p = 0 := by
        rw [List.countP_eq_zero]
        intro b hb hpb
        exact hnd.1 (by
          have : k b = k a := by
            rw [hk b (List.mem_cons_of_mem a hb) hpb, hk a (List.mem_cons_self a t) h]
          rw [← this]
          exact List.mem_map_of_mem k hb)
      simp [List.countP_cons, h, ht]
    · simpa [List.countP_cons, h] using
        ih hnd.2 fun b hb hpb => hk b (List.mem_cons_of_mem a hb) hpb

theorem countP_eq_one_of_key {α β : Type} (l : List α) (k : α → β) (p : α → Bool) (c : β)
    (hnd : (l.map k).Nodup) (hk : ∀ a ∈ l, p a → k a = c)
    (hex : ∃ a ∈ l, p a) :
    l.countP p = 1 :=
  Nat.le_antisymm (countP_le_one_of_key l k p c hnd hk) (List.countP_pos_iff.mpr hex)

theorem countP_flatMap {α β : Type} (l : List α) (f : α → List β) (q : β → Bool) :
    (l.flatMap f).countP q = (l.map fun a => (f a).countP q).sum := by
  induction l with
  | nil => simp
  | cons a t ih => simp [List.flatMap_cons, List.countP_append, ih]

theorem countP_filterMap {α β : Type} (g : α → Option β) (l : List α) (q : β → Bool) :
    (l.filterMap g).countP q = l.countP fun a => ((g a).map q).getD false := by
  induction l with
  | nil => simp
  | cons a t ih =>
    cases h : g a with
    | none => simp [List.filterMap_cons, h, ih, List.countP_cons]
    | some b => simp [List.filterMap_cons, h, ih, List.countP_cons]

theorem length_flatMap {α β : Type} (l : List α) (f : α → List β) :
    (l.flatMap f).length = (l.map fun a => (f a).length).sum := by
  rw [List.flatMap_def, List.length_flatten, List.map_map]; rfl

/-! ### Basic facts about the store and the aggregators -/

theorem mem_acceptedEdges {db : DB} {e : Friendship} :
    e ∈ acceptedEdges db ↔ e ∈ db.friendships ∧ e.status = FriendshipStatus.accepted := by
  simp [acceptedEdges]

theorem totalFriendCount_ne_zero {db : DB} {b x : Nat} (h : hasAcceptedEdge db b x) :
    totalFriendCount db b ≠ 0 := by
  obtain ⟨e, he, h1, _, h3⟩ := h
  have hm : e ∈ (acceptedEdges db).filter fun e => decide (e.userId = b) := by
    rw [List.mem_filter]
    exact ⟨mem_acceptedEdges.mpr ⟨he, h3⟩, by simp [h1]⟩
  intro hz
  unfold totalFriendCount at hz
  rw [List.length_eq_zero] at hz
  rw [hz] at hm
  exact List.not_mem_nil e hm

theorem hasAcceptedEdge_symm {db : DB} (hs : SymmOK db) {a b : Nat}
    (h : hasAcceptedEdge db a b) : hasAcceptedEdge db b a := by
  obtain ⟨e, he, h1, h2, h3⟩ := h
  have := hs e he h3
  rwa [h1, h2] at this

/-! ### Lemmas about the rows of `getById` -/

theorem getByIdRows_mem {db : DB} {A B : Nat} {r : FriendRow}
    (h : r ∈ getByIdRows db A B) :
    (∃ u ∈ db.users, u.id = B ∧ r = getByIdSelect db A B u)
      ∧ hasAcceptedEdge db A B ∧ totalFriendCount db B ≠ 0 := by
  rw [getByIdRows, List.mem_flatMap] at h
  obtain ⟨u, hu, hr⟩ := h
  rw [List.mem_filterMap] at hr
  obtain ⟨f, hf, hfr⟩ := hr
  split at hfr
  next hcond =>
    obtain ⟨hS, h1, h2, h3, h4⟩ := hcond
    have huid : u.id = B := by rw [← h1, h3]
    have htot : totalFriendCount db B ≠ 0 := by
      intro hz
      rw [huid] at hS
      simp [userTotalFriendCount, hz] at hS
    exact ⟨⟨u, hu, huid, (Option.some_inj.mp hfr).symm⟩, ⟨f, hf, h2, h3, h4⟩, htot⟩
  next => exact absurd hfr (by simp)

theorem getByIdSelect_mem_rows {db : DB} {A B : Nat} {u : User}
    (hu : u ∈ db.users) (huid : u.id = B) (he : hasAcceptedEdge db A B)
    (ht : totalFriendCount db B ≠ 0) :
    getByIdSelect db A B u ∈ getByIdRows db A B := by
  obtain ⟨e, hef, h1, h2, h3⟩ := he
  rw [getByIdRows, List.mem_flatMap]
  refine ⟨u, hu, ?_⟩
  rw [List.mem_filterMap]
  refine ⟨e, hef, ?_⟩
  rw [if_pos]
  refine ⟨?_, ?_, h1, h2, h3⟩
  · rw [huid]
    simp [userTotalFriendCount, ht]
  · rw [h2, huid]

theorem parseRecord_getByIdSelect {db : DB} {A B : Nat} {u : User}
    (h0 : 0 < u.id) (h1 : u.fullName ≠ "") (h2 : u.phoneNumber ≠ "") :
    parseRecord (getByIdSelect db A B u)
      = Except.ok ⟨u.id, u.fullName, u.phoneNumber, (userTotalFriendCount db u.id).getD 0,
          ((if u.id = B then userMutualFriendCount db A B else none).getD 0)⟩ := by
  simp [parseRecord, getByIdSelect, h0, h1, h2]

/-- The central success lemma for `getById`: if the accepted edge exists and
the target has a nonzero accepted-outgoing count (so that the inner join with
`userTotalFriendCount` keeps the row), the operation returns the target's
enriched record. -/
theorem getById_ok (db : DB) (A B : Nat) (hWF : WF db)
    (he : hasAcceptedEdge db A B) (ht : totalFriendCount db B ≠ 0) :
    ∃ u ∈ db.users, u.id = B ∧
      getById db A B = Except.ok ⟨B, u.fullName, u.phoneNumber, totalFriendCount db B,
        (userMutualFriendCount db A B).getD 0⟩ := by
  obtain ⟨hids, hvalid, hkeys, hends⟩ := hWF
  obtain ⟨e, hef, he1, he2, he3⟩ := he
  obtain ⟨u0, hu0, hu0id⟩ := (hends e hef).2
  rw [he2] at hu0id
  have hmem : getByIdSelect db A B u0 ∈ getByIdRows db A B :=
    getByIdSelect_mem_rows hu0 hu0id ⟨e, hef, he1, he2, he3⟩ ht
  rcases hrows : getByIdRows db A B with _ | ⟨r, t⟩
  · rw [hrows] at hmem
    exact absurd hmem (List.not_mem_nil _)
  · have hrmem : r ∈ getByIdRows db A B := by
      rw [hrows]; exact List.mem_cons_self r t
    obtain ⟨⟨u, hu, huid, hru⟩, -⟩ := getByIdRows_mem hrmem
    obtain ⟨hpos, hname, hphone⟩ := hvalid u hu
    refine ⟨u, hu, huid, ?_⟩
    rw [getById, hrows]
    simp only [List.head?_cons]
    rw [hru, parseRecord_getByIdSelect hpos hname hphone]
    rw [huid] at *
    simp [userTotalFriendCount, ht]

theorem parseRecord_ne_notFound (r : FriendRow) :
    parseRecord r ≠ Except.error RouterError.notFound := by
  unfold parseRecord
  split
  · simp
  · split <;> simp

theorem getById_notFound_iff (db : DB) (A B : Nat) :
    getById db A B = Except.error RouterError.notFound ↔ getByIdRows db A B = [] := by
  unfold getById
  rcases hrows : (getByIdRows db A B).head? with _ | r
  · rw [List.head?_eq_none_iff] at hrows
    simp [hrows]
  · constructor
    · intro h
      exact absurd h (parseRecord_ne_notFound r)
    · intro h
      rw [h] at hrows
      exact absurd hrows (by simp)

theorem isSome_ite {α : Type} (c : Prop) [Decidable c] (x : α) :
    (if c then some x else none).isSome = decide c := by
  split <;> simp [*]

theorem getD_map_ite {α : Type} (c : Prop) [Decidable c] (x : α) (q : α → Bool) :
    (((if c then some x else none).map q).getD false) = if c then q x else false := by
  split <;> simp

theorem sum_map_ite_eq_one {α β : Type} [DecidableEq β] (l : List α) (k : α → β) (c : β)
    (hnd : (l.map k).Nodup) (hex : ∃ a ∈ l, k a = c) :
    (l.map fun a => if k a = c then 1 else 0).sum = 1 := by
  induction l with
  | nil => simp at hex
  | cons a t ih =>
    rw [List.map_cons, List.nodup_cons] at hnd
    by_cases h : k a = c
    · have hz : (t.map fun a => if k a = c then 1 else 0).sum = 0 := by
        apply List.sum_eq_zero
        intro x hx
        rw [List.mem_map] at hx
        obtain ⟨b, hb, hbx⟩ := hx
        have : k b ≠ c := by
          intro hbc
          exact hnd.1 (by rw [h, ← hbc]; exact List.mem_map_of_mem k hb)
        rw [← hbx, if_neg this]
      simp [h, hz]
    · obtain ⟨b, hb, hkb⟩ := hex
      rcases List.mem_cons.mp hb with rfl | hb'
      · exact absurd hkb h
      · simp [h, ih hnd.2 ⟨b, hb', hkb⟩]

/-- Under a unique-edge key and a unique target user, the `getById` query
produces exactly one row. -/
theorem getByIdRows_length_one (db : DB) (A B : Nat) (hWF : WF db) (hs : SymmOK db)
    (he : hasAcceptedEdge db A B) : (getByIdRows db A B).length = 1 := by
  obtain ⟨hids, hvalid, hkeys, hends⟩ := hWF
  have ht : totalFriendCount db B ≠ 0 := totalFriendCount_ne_zero (hasAcceptedEdge_symm hs he)
  obtain ⟨e, hef, he1, he2, he3⟩ := he
  obtain ⟨u0, hu0, hu0id⟩ := (hends e hef).2
  rw [he2] at hu0id
  rw [getByIdRows, length_flatMap]
  have hinner : ∀ u ∈ db.users,
      (db.friendships.filterMap fun f =>
        if (userTotalFriendCount db u.id).isSome
            ∧ f.friendUserId = u.id ∧ f.userId = A
            ∧ f.friendUserId = B ∧ f.status = FriendshipStatus.accepted then
          some (getByIdSelect db A B u)
        else none).length = if u.id = B then 1 else 0 := by
    intro u _
    rw [List.length_filterMap_eq_countP]
    have hpred : (fun f =>
        (if (userTotalFriendCount db u.id).isSome
            ∧ f.friendUserId = u.id ∧ f.userId = A
            ∧ f.friendUserId = B ∧ f.status = FriendshipStatus.accepted then
          some (getByIdSelect db A B u)
        else none).isSome)
        = fun f : Friendship => decide ((userTotalFriendCount db u.id).isSome
            ∧ f.friendUserId = u.id ∧ f.userId = A
            ∧ f.friendUserId = B ∧ f.status = FriendshipStatus.accepted) :=
      funext fun f => isSome_ite _ _
    rw [hpred]
    by_cases hid : u.id = B
    · rw [if_pos hid]
      refine countP_eq_one_of_key db.friendships (fun e => (e.userId, e.friendUserId)) _
        (A, B) hkeys ?_ ?_
      · intro f _ hpf
        obtain ⟨-, -, hf1, hf2, -⟩ := of_decide_eq_true hpf
        simp [hf1, hf2]
      · refine ⟨e, hef, decide_eq_true ⟨?_, ?_, he1, he2, he3⟩⟩
        · rw [hid]
          simp [userTotalFriendCount, ht]
        · rw [he2, hid]
    · rw [if_neg hid]
      rw [List.countP_eq_zero]
      intro f _ hpf
      obtain ⟨-, hf1, -, hf2, -⟩ := of_decide_eq_true hpf
      exact hid (by rw [← hf1, hf2])
  rw [List.map_congr_left hinner]
  exact sum_map_ite_eq_one db.users (fun u => u.id) B hids ⟨u0, hu0, hu0id⟩

theorem getByIdRows_eq_nil (db : DB) (A B : Nat) (hne : ¬ hasAcceptedEdge db A B) :
    getByIdRows db A B = [] := by
  rw [List.eq_nil_iff_forall_not_mem]
  intro r hr
  exact hne (getByIdRows_mem hr).2.1

/-! ### Lemmas about the rows of `getAll` and `getAll1` -/

theorem getAllRows_mem {db : DB} {A : Nat} {r : FriendRow}
    (h : r ∈ getAllRows db A) :
    ∃ u ∈ db.users, r = getAllSelect db A u ∧ hasAcceptedEdge db A u.id := by
  rw [getAllRows, List.mem_flatMap] at h
  obtain ⟨u, hu, hr⟩ := h
  rw [List.mem_filterMap] at hr
  obtain ⟨f, hf, hfr⟩ := hr
  split at hfr
  next hcond =>
    obtain ⟨-, h1, h2, h3⟩ := hcond
    exact ⟨u, hu, (Option.some_inj.mp hfr).symm, f, hf, h2, h1, h3⟩
  next => exact absurd hfr (by simp)

theorem getAll1Rows_mem {db : DB} {A : Nat} {r : FriendRow}
    (h : r ∈ getAll1Rows db A) :
    ∃ u ∈ db.users, totalOtherCount db A u.id ≠ 0
      ∧ r = { id := u.id, fullName := u.fullName, phoneNumber := u.phoneNumber,
              totalFriendCount := totalOtherCount db A u.id,
              mutualFriendCount := mutualFriendCountCte db A u.id } := by
  rw [getAll1Rows, List.mem_filterMap] at h
  obtain ⟨u, hu, hr⟩ := h
  split at hr
  next => exact absurd hr (by simp)
  next hcond => exact ⟨u, hu, hcond, (Option.some_inj.mp hr).symm⟩

/-- The batch aggregate of `getAll` and the CTE aggregate of `getAll1` compute
the same join count for every friend key (the join is symmetric in the two
partitions). -/
theorem mutualAllCount_eq_cte (db : DB) (A v : Nat) :
    mutualAllCount db A v = mutualCteCount db A v := by
  unfold mutualAllCount mutualCteCount
  rw [joinCount_comm]
  apply joinCount_congr
  intro a _ b _
  simp only [decide_eq_decide]
  constructor
  · rintro ⟨h1, h2, h3, h4⟩
    rw [h3] at h2
    exact ⟨h3, h2, h1.symm, h4⟩
  · rintro ⟨h1, h2, h3, h4⟩
    rw [← h1] at h2
    exact ⟨h3.symm, h2, h1, h4⟩

theorem totalOther_eq_total (db : DB) (A v : Nat) (hvA : v ≠ A) :
    totalOtherCount db A v = totalFriendCount db v := by
  unfold totalOtherCount totalFriendCount
  congr 1
  apply List.filter_congr
  intro e _
  simp only [decide_eq_decide]
  constructor
  · exact fun h => h.1
  · exact fun h => ⟨h, by rw [h]; exact hvA⟩

theorem ite_decide_and (c d : Prop) [Decidable c] [Decidable d] :
    (if c then decide d else false) = decide (c ∧ d) := by
  by_cases h : c <;> simp [h]

theorem ne_of_noSelfEdges {db : DB} (hn : NoSelfEdges db) {A v : Nat}
    (he : hasAcceptedEdge db A v) : v ≠ A := by
  obtain ⟨e, he0, he1, he2, he3⟩ := he
  intro hvA
  exact hn e he0 he3 (by rw [he1, he2, hvA])

/-- The `getAll` query produces exactly one row carrying the id of each
accepted friend of the requester. -/
theorem getAllRows_countP (db : DB) (A v : Nat) (hWF : WF db) (hs : SymmOK db)
    (he : hasAcceptedEdge db A v) :
    (getAllRows db A).countP (fun r => decide (r.id = v)) = 1 := by
  obtain ⟨hids, hvalid, hkeys, hends⟩ := hWF
  have ht : totalFriendCount db v ≠ 0 := totalFriendCount_ne_zero (hasAcceptedEdge_symm hs he)
  obtain ⟨e, hef, he1, he2, he3⟩ := he
  obtain ⟨u0, hu0, hu0id⟩ := (hends e hef).2
  rw [he2] at hu0id
  rw [getAllRows, countP_flatMap]
  have hinner : ∀ u ∈ db.users,
      (db.friendships.filterMap fun f =>
        if (userTotalFriendCount db u.id).isSome
            ∧ f.friendUserId = u.id ∧ f.userId = A
            ∧ f.status = FriendshipStatus.accepted then
          some (getAllSelect db A u)
        else none).countP (fun r => decide (r.id = v)) = if u.id = v then 1 else 0 := by
    intro u _
    rw [countP_filterMap]
    have hpred : (fun f : Friendship =>
        (((if (userTotalFriendCount db u.id).isSome
            ∧ f.friendUserId = u.id ∧ f.userId = A
            ∧ f.status = FriendshipStatus.accepted then
          some (getAllSelect db A u)
        else none).map fun r => decide (r.id = v)).getD false))
        = fun f : Friendship => decide (((userTotalFriendCount db u.id).isSome
            ∧ f.friendUserId = u.id ∧ f.userId = A
            ∧ f.status = FriendshipStatus.accepted) ∧ u.id = v) := by
      funext f
      rw [getD_map_ite, ite_decide_and]
      rfl
    rw [hpred]
    by_cases hid : u.id = v
    · rw [if_pos hid]
      refine countP_eq_one_of_key db.friendships (fun e => (e.userId, e.friendUserId)) _
        (A, v) hkeys ?_ ?_
      · intro f _ hpf
        obtain ⟨⟨-, hf1, hf2, -⟩, hf3⟩ := of_decide_eq_true hpf
        simp [hf1, hf2, hf3]
      · refine ⟨e, hef, decide_eq_true ⟨⟨?_, ?_, he1, he3⟩, hid⟩⟩
        · rw [hid]
          simp [userTotalFriendCount, ht]
        · rw [he2, hid]
    · rw [if_neg hid]
      rw [List.countP_eq_zero]
      intro f _ hpf
      exact hid (of_decide_eq_true hpf).2
  rw [List.map_congr_left hinner]
  exact sum_map_ite_eq_one db.users (fun u => u.id) v hids ⟨u0, hu0, hu0id⟩

/-- The `getAll1` query also produces exactly one row carrying the id of each
accepted friend of the requester (other than the requester). -/
theorem getAll1Rows_countP (db : DB) (A v : Nat) (hWF : WF db) (hs : SymmOK db)
    (hvA : v ≠ A) (he : hasAcceptedEdge db A v) :
    (getAll1Rows db A).countP (fun r => decide (r.id = v)) = 1 := by
  obtain ⟨hids, hvalid, hkeys, hends⟩ := hWF
  have ht : totalOtherCount db A v ≠ 0 := by
    rw [totalOther_eq_total db A v hvA]
    exact totalFriendCount_ne_zero (hasAcceptedEdge_symm hs he)
  obtain ⟨e, hef, he1, he2, he3⟩ := he
  obtain ⟨u0, hu0, hu0id⟩ := (hends e hef).2
  rw [he2] at hu0id
  rw [getAll1Rows, countP_filterMap]
  have hpred : (fun u : User =>
      (((if totalOtherCount db A u.id = 0 then none
        else some { id := u.id, fullName := u.fullName, phoneNumber := u.phoneNumber,
                    totalFriendCount := totalOtherCount db A u.id,
                    mutualFriendCount := mutualFriendCountCte db A u.id
                    : FriendRow }).map fun r => decide (r.id = v)).getD false))
      = fun u : User => decide (¬ totalOtherCount db A u.id = 0 ∧ u.id = v) := by
    funext u
    by_cases h : totalOtherCount db A u.id = 0 <;> simp [h]
  rw [hpred]
  refine countP_eq_one_of_key db.users (fun u => u.id) _ v hids ?_ ?_
  · intro u _ hpu
    exact (of_decide_eq_true hpu).2
  · exact ⟨u0, hu0, decide_eq_true ⟨by rw [hu0id]; exact ht, hu0id⟩⟩

theorem filter_eq_singleton_of_countP_one {α : Type} (l : List α) (q : α → Bool)
    (h : l.countP q = 1) : ∃ a, l.filter q = [a] := by
  rw [List.countP_eq_length_filter] at h
  exact List.length_eq_one.mp h

/-! ### Claim C1 -/

/-- C1: the cross-consistency claim fails on the code.  On the symmetric
two-user state `dbPair` (which satisfies the accepted-symmetry invariant) the
pair (1,2) is accepted and `getById 1 2` returns mutual count 0 (coalesced),
but `getAll 1` selects the left-joined batch mutual count without coalescing,
produces NULL for friend 2, and fails the response-schema parse — so the
result of `getAll` contains no record for id 2 at all, let alone one with an
equal mutual count. -/
theorem claim1_cross_consistency_fails_at_dbPair :
    SymmOK dbPair ∧ hasAcceptedEdge dbPair 1 2
    ∧ Except.map (fun r => r.mutualFriendCount) (getById dbPair 1 2) = Except.ok 0
    ∧ getAll dbPair 1 = Except.error RouterError.parseError :=
  ⟨by decide, by decide, rfl, rfl⟩

/-! ### Claim C2 -/

/-- C2: on `dbPair`, friend 2 of requester 1 shares no third-party accepted
neighbor with the requester (the spec-side third-party count is 0).  `getById`
does return the record with `mutualFriendCount = 0`, but `getAll` produces the
row for friend 2 with a NULL (`none`) mutual count — `getAll` has no
coalesce — and the operation fails instead of returning the record with 0. -/
theorem claim2_zero_mutual_friend_breaks_getAll :
    SymmOK dbPair ∧ mutualPairCountExcl dbPair 1 2 = 0
    ∧ getById dbPair 1 2 = Except.ok ⟨2, "B", "p2", 1, 0⟩
    ∧ getAllRows dbPair 1 = [⟨2, "B", "p2", 1, none⟩]
    ∧ getAll dbPair 1 = Except.error RouterError.parseError :=
  ⟨by decide, by decide, rfl, rfl, rfl⟩

/-! ### Claim C3 -/

/-- C3 (counterexample): the claimed "fails with NotFound iff no accepted
edge exists" is false without the symmetry invariant: in `dbAsym` the accepted
edge (1,2) exists, yet `getById 1 2` fails with NotFound, because the target
has no accepted outgoing edge and the inner join with the total-count
aggregate drops the row. -/
theorem claim3_counterexample :
    hasAcceptedEdge dbAsym 1 2
    ∧ getById dbAsym 1 2 = Except.error RouterError.notFound :=
  ⟨by decide, rfl⟩

/-- C3 (amended): for well-formed stores satisfying the accepted-symmetry
invariant, `getById` fails with NotFound iff no accepted edge
(requester, target) exists, and when one exists the query produces exactly
one row and the operation returns a record whose id is the target. -/
theorem claim3_notFound_iff_no_accepted_edge (db : DB) (A B : Nat)
    (hWF : WF db) (hs : SymmOK db) :
    (getById db A B = Except.error RouterError.notFound ↔ ¬ hasAcceptedEdge db A B)
    ∧ (hasAcceptedEdge db A B →
        (getByIdRows db A B).length = 1
        ∧ ∃ r, getById db A B = Except.ok r ∧ r.id = B) := by
  constructor
  · rw [getById_notFound_iff]
    constructor
    · intro hnil he
      have ht : totalFriendCount db B ≠ 0 :=
        totalFriendCount_ne_zero (hasAcceptedEdge_symm hs he)
      obtain ⟨e, hef, he1, he2, he3⟩ := he
      obtain ⟨u0, hu0, hu0id⟩ := (hWF.2.2.2 e hef).2
      rw [he2] at hu0id
      have hmem := getByIdSelect_mem_rows hu0 hu0id ⟨e, hef, he1, he2, he3⟩ ht
      rw [hnil] at hmem
      exact List.not_mem_nil _ hmem
    · exact getByIdRows_eq_nil db A B
  · intro he
    refine ⟨getByIdRows_length_one db A B hWF hs he, ?_⟩
    have ht : totalFriendCount db B ≠ 0 :=
      totalFriendCount_ne_zero (hasAcceptedEdge_symm hs he)
    obtain ⟨u, _, _, hok⟩ := getById_ok db A B hWF he ht
    exact ⟨_, hok, rfl⟩

/-- C3 witness: the amended characterization evaluated on `dbPair`. -/
theorem claim3_witness :
    (getById dbPair 1 2 = Except.error RouterError.notFound ↔ ¬ hasAcceptedEdge dbPair 1 2)
    ∧ (hasAcceptedEdge dbPair 1 2 →
        (getByIdRows dbPair 1 2).length = 1
        ∧ ∃ r, getById dbPair 1 2 = Except.ok r ∧ r.id = 2) :=
  claim3_notFound_iff_no_accepted_edge dbPair 1 2 (by decide) (by decide)

/-! ### Claim C4 -/

/-- C4: `getAll` does not return one record per accepted edge on every
invariant-satisfying state.  On `dbWeb` (the repository's own test scenario
`Question 5 / Scenario 1`: well-formed and symmetric) requester 1 has the four
accepted friends 2, 3, 4, 5, and the query does produce the four expected
rows — but friend 5's mutual count is NULL, the schema parse rejects it, and
the operation fails instead of returning the records. -/
theorem claim4_getAll_fails_on_zero_mutual_state :
    WF dbWeb ∧ SymmOK dbWeb
    ∧ (getAllRows dbWeb 1).map (fun r => (r.id, r.totalFriendCount, r.mutualFriendCount))
        = [(2, 3, some 2), (3, 2, some 1), (4, 2, some 1), (5, 1, none)]
    ∧ getAll dbWeb 1 = Except.error RouterError.parseError :=
  ⟨by decide, by decide, by decide, rfl⟩

/-! ### Claim C5 -/

/-- C5: for a well-formed symmetric store, the `totalFriendCount` field that
`getById` returns for target B is the number of accepted edges (B, *) in the
store, for any requester with an accepted edge to B — hence equal across
requesters. -/
theorem claim5_total_is_target_total (db : DB) (A B C : Nat)
    (hWF : WF db) (hBA : hasAcceptedEdge db B A)
    (hAB : hasAcceptedEdge db A B) (hCB : hasAcceptedEdge db C B) :
    Except.map (fun r => r.totalFriendCount) (getById db A B)
      = Except.ok (totalFriendCount db B)
    ∧ Except.map (fun r => r.totalFriendCount) (getById db C B)
      = Except.ok (totalFriendCount db B) := by
  have ht : totalFriendCount db B ≠ 0 := totalFriendCount_ne_zero hBA
  obtain ⟨u1, _, _, h1⟩ := getById_ok db A B hWF hAB ht
  obtain ⟨u2, _, _, h2⟩ := getById_ok db C B hWF hCB ht
  rw [h1, h2]
  exact ⟨rfl, rfl⟩

/-- C5 witness: in `dbWeb`, requesters 2 and 3 both see target 1 with total
count 4. -/
theorem claim5_witness :
    Except.map (fun r => r.totalFriendCount) (getById dbWeb 2 1)
      = Except.ok (totalFriendCount dbWeb 1)
    ∧ Except.map (fun r => r.totalFriendCount) (getById dbWeb 3 1)
      = Except.ok (totalFriendCount dbWeb 1) :=
  claim5_total_is_target_total dbWeb 2 1 3 (by decide) (by decide) (by decide) (by decide)

/-! ### Claim C6 -/

/-- C6 (counterexample): with an accepted self-edge (1,1) present, both the
single-pair and the batch aggregator count user 1 itself as a shared neighbor
of the pair (1,2): the join count is 1 although the spec-side third-party
count is 0 — so the claim that neither endpoint is ever counted is false. -/
theorem claim6_counterexample :
    mutualPairCount dbSelf 1 2 = 1 ∧ mutualPairCountExcl dbSelf 1 2 = 0
    ∧ mutualAllCount dbSelf 1 2 = 1 ∧ mutualAllCountExcl dbSelf 1 2 = 0 := by
  decide

/-- C6 (amended): on stores without accepted self-edges, both aggregators
count only third parties: each equals its variant that structurally excludes
the two endpoints of the queried pair. -/
theorem claim6_no_self_counting (db : DB) (hn : NoSelfEdges db) (A B : Nat) :
    mutualPairCount db A B = mutualPairCountExcl db A B
    ∧ mutualAllCount db A B = mutualAllCountExcl db A B := by
  constructor
  · unfold mutualPairCount mutualPairCountExcl
    apply joinCount_congr
    intro a ha b hb
    simp only [decide_eq_decide]
    constructor
    · rintro ⟨h1, h2, h3⟩
      refine ⟨h1, h2, h3, ?_, ?_⟩
      · intro hw
        have hb' := mem_acceptedEdges.mp hb
        exact hn b hb'.1 hb'.2 (h3.trans (hw.symm.trans h1))
      · intro hw
        have ha' := mem_acceptedEdges.mp ha
        exact hn a ha'.1 ha'.2 (h2.trans hw.symm)
    · rintro ⟨h1, h2, h3, -, -⟩
      exact ⟨h1, h2, h3⟩
  · unfold mutualAllCount mutualAllCountExcl
    apply joinCount_congr
    intro a ha b hb
    simp only [decide_eq_decide]
    constructor
    · rintro ⟨h1, h2, h3, h4⟩
      refine ⟨h1, h2, h3, h4, ?_, ?_⟩
      · intro hw
        have hb' := mem_acceptedEdges.mp hb
        exact hn b hb'.1 hb'.2 (h3.trans (hw.symm.trans h1))
      · intro hw
        have ha' := mem_acceptedEdges.mp ha
        exact hn a ha'.1 ha'.2 (h4.trans hw.symm)
    · rintro ⟨h1, h2, h3, h4, -, -⟩
      exact ⟨h1, h2, h3, h4⟩

/-- C6 witness: on the self-edge-free `dbWeb`, both aggregators equal their
third-party-only variants at the pair (1,2). -/
theorem claim6_witness :
    mutualPairCount dbWeb 1 2 = mutualPairCountExcl dbWeb 1 2
    ∧ mutualAllCount dbWeb 1 2 = mutualAllCountExcl dbWeb 1 2 :=
  claim6_no_self_counting dbWeb (by decide) 1 2

/-! ### Claim C7 -/

/-- C7: the single-pair aggregator `userMutualFriendCount` yields the same
join count when its two fixed endpoints are swapped (for accepted pairs, as
claimed — the hypothesis is not actually needed by the proof). -/
theorem claim7_mutual_swap_symmetric (db : DB) (A B : Nat)
    (hpair : hasAcceptedEdge db A B) :
    mutualPairCount db A B = mutualPairCount db B A := by
  unfold mutualPairCount
  rw [joinCount_comm]
  apply joinCount_congr
  intro a _ b _
  simp only [decide_eq_decide]
  constructor
  · rintro ⟨h1, h2, h3⟩
    exact ⟨h1.symm, h3, h2⟩
  · rintro ⟨h1, h2, h3⟩
    exact ⟨h1.symm, h3, h2⟩

/-- C7 witness: swap symmetry evaluated for the accepted pair (1,2) of
`dbWeb`. -/
theorem claim7_witness : mutualPairCount dbWeb 1 2 = mutualPairCount dbWeb 2 1 :=
  claim7_mutual_swap_symmetric dbWeb 1 2 (by decide)

/-! ### Claim C8 -/

/-- C8 (counterexample): in `dbAsym2` the accepted edge (1,2) exists but
target 2 has zero accepted outgoing edges; `getById 1 2` does NOT return the
target's record — the total-count join is an inner join, the row is dropped,
and the operation fails with NotFound. -/
theorem claim8_counterexample :
    hasAcceptedEdge dbAsym2 1 2 ∧ totalFriendCount dbAsym2 2 = 0
    ∧ getById dbAsym2 1 2 = Except.error RouterError.notFound :=
  ⟨by decide, by decide, rfl⟩

/-- C8 (amended): `getById` joins the total-count aggregate with an inner
join, so with an accepted edge present it returns the target's record exactly
when the target has a nonzero accepted-outgoing count (only the mutual count
gets the outer-join + coalesce default); with a zero count the row is dropped
and the operation fails with NotFound. -/
theorem claim8_inner_join_total_characterization (db : DB) (A B : Nat)
    (hWF : WF db) (he : hasAcceptedEdge db A B) :
    (totalFriendCount db B ≠ 0 → ∃ r, getById db A B = Except.ok r ∧ r.id = B)
    ∧ (totalFriendCount db B = 0 →
        getById db A B = Except.error RouterError.notFound) := by
  constructor
  · intro ht
    obtain ⟨u, _, _, hok⟩ := getById_ok db A B hWF he ht
    exact ⟨_, hok, rfl⟩
  · intro ht
    rw [getById_notFound_iff]
    rw [List.eq_nil_iff_forall_not_mem]
    intro r hr
    exact (getByIdRows_mem hr).2.2 ht

/-- C8 witness: the characterization evaluated on `dbPair` at the accepted
pair (1,2), whose target has total count 1. -/
theorem claim8_witness :
    (totalFriendCount dbPair 2 ≠ 0 →
      ∃ r, getById dbPair 1 2 = Except.ok r ∧ r.id = 2)
    ∧ (totalFriendCount dbPair 2 = 0 →
        getById dbPair 1 2 = Except.error RouterError.notFound) :=
  claim8_inner_join_total_characterization dbPair 1 2 (by decide) (by decide)

/-! ### Claim C9 -/

/-- C9: a non-positive `friendUserId` is rejected with a validation error
before the query runs, and the outcome does not depend on the edge store at
all (any two stores give the same result). -/
theorem claim9_validation_before_query (db db' : DB) (requesterId : Nat) (i : Int)
    (h : i ≤ 0) :
    getByIdProc db requesterId i = Except.error RouterError.validationError
    ∧ getByIdProc db requesterId i = getByIdProc db' requesterId i := by
  unfold getByIdProc
  rw [if_pos h, if_pos h]
  exact ⟨rfl, rfl⟩

/-- C9 witness: validation of the malformed input -3 on two different
stores. -/
theorem claim9_witness :
    getByIdProc dbPair 1 (-3) = Except.error RouterError.validationError
    ∧ getByIdProc dbPair 1 (-3) = getByIdProc dbAsym 1 (-3) :=
  claim9_validation_before_query dbPair dbAsym 1 (-3) (by decide)

/-! ### Claim C10 -/

/-- C10 (counterexample): the two batch routes do not return the same set of
records.  On `dbC10` both succeed, but `getAll1` additionally returns a
record for user 4 — who is not a friend of requester 1 at all (no filter in
`getAll1` restricts the output to the requester's friends). -/
theorem claim10_counterexample :
    Except.map (List.map fun r => r.id) (getAll dbC10 1) = Except.ok [2, 3]
    ∧ Except.map (List.map fun r => r.id) (getAll1 dbC10 1) = Except.ok [2, 3, 4]
    ∧ ¬ hasAcceptedEdge dbC10 1 4 :=
  ⟨rfl, rfl, by decide⟩

/-- C10 (amended): on well-formed symmetric stores the two batch routes agree
on the requester's accepted friends other than the requester itself: for
every such accepted friend v each route produces exactly one row with id v,
and the two rows are equal (same name, total and mutual count); `getAll1` may
return additional rows for non-friends. -/
theorem claim10_agreement_on_friend_rows (db : DB) (A v : Nat) (hWF : WF db)
    (hs : SymmOK db) (hvA : v ≠ A) (he : hasAcceptedEdge db A v) :
    (getAllRows db A).filter (fun r => decide (r.id = v))
      = (getAll1Rows db A).filter (fun r => decide (r.id = v))
    ∧ ((getAllRows db A).filter fun r => decide (r.id = v)).length = 1 := by
  have ht : totalFriendCount db v ≠ 0 :=
    totalFriendCount_ne_zero (hasAcceptedEdge_symm hs he)
  obtain ⟨rA, hA⟩ := filter_eq_singleton_of_countP_one _ _
    (getAllRows_countP db A v hWF hs he)
  obtain ⟨rB, hB⟩ := filter_eq_singleton_of_countP_one _ _
    (getAll1Rows_countP db A v hWF hs hvA he)
  have hrAmem : rA ∈ (getAllRows db A).filter fun r => decide (r.id = v) := by
    rw [hA]; exact List.mem_cons_self rA []
  rw [List.mem_filter] at hrAmem
  obtain ⟨hrA_rows, hrA_id⟩ := hrAmem
  obtain ⟨u1, hu1, hrA_eq, -⟩ := getAllRows_mem hrA_rows
  have hu1id : u1.id = v := by
    have hv : rA.id = v := of_decide_eq_true hrA_id
    rw [hrA_eq] at hv
    exact hv
  have hrBmem : rB ∈ (getAll1Rows db A).filter fun r => decide (r.id = v) := by
    rw [hB]; exact List.mem_cons_self rB []
  rw [List.mem_filter] at hrBmem
  obtain ⟨hrB_rows, hrB_id⟩ := hrBmem
  obtain ⟨u2, hu2, htot2, hrB_eq⟩ := getAll1Rows_mem hrB_rows
  have hu2id : u2.id = v := by
    have hv : rB.id = v := of_decide_eq_true hrB_id
    rw [hrB_eq] at hv
    exact hv
  have hu12 : u1 = u2 :=
    List.inj_on_of_nodup_map hWF.1 hu1 hu2 (show u1.id = u2.id by rw [hu1id, hu2id])
  have hrowEq : rA = rB := by
    rw [hrA_eq, hrB_eq, ← hu12]
    unfold getAllSelect
    rw [hu1id]
    have h4 : (userTotalFriendCount db v).getD 0 = totalOtherCount db A v := by
      rw [totalOther_eq_total db A v hvA]
      simp [userTotalFriendCount, ht]
    have h5 : mutualFriendsCountAll db A v = mutualFriendCountCte db A v := by
      unfold mutualFriendsCountAll mutualFriendCountCte
      rw [mutualAllCount_eq_cte]
    rw [h4, h5]
  constructor
  · rw [hA, hB, hrowEq]
  · rw [hA]
    rfl

/-- C10 witness: on `dbC10` the two routes agree on the accepted friend 2 of
requester 1. -/
theorem claim10_witness :
    (getAllRows dbC10 1).filter (fun r => decide (r.id = 2))
      = (getAll1Rows dbC10 1).filter (fun r => decide (r.id = 2))
    ∧ ((getAllRows dbC10 1).filter fun r => decide (r.id = 2)).length = 1 :=
  claim10_agreement_on_friend_rows dbC10 1 2 (by decide) (by decide) (by decide) (by decide)

end FriendRouter
